import Mathlib

/-!
Verification development for the MajorProject soil-analysis appliance.

The repository's control scripts (`compiled.py`, `major.py`) compute water and
fertilizer recommendations with CPython double-precision arithmetic and
Python's `round(x, 1)`.  We embed that arithmetic exactly over `ℚ`:

* `rne` is round-half-to-even to an integer;
* `fl` maps a rational to the nearest IEEE-754 binary64 value (53-bit
  significand, round-to-nearest ties-to-even, unbounded exponent — identical
  to binary64 throughout the magnitudes the programs handle);
* `pyRound1 x` is CPython's `round(x, 1)` applied to a double of exact value
  `x`: the exact value is correctly rounded (ties to even) to one decimal
  place and the resulting decimal is converted back to the nearest double;
* `d05` is the double nearest to the literal `0.05`.

With these, `pyRound1 (fl (fl d * d05))` equals the exact rational value of
the Python expression `round(d * 0.05, 1)` for an integer `d`.
-/

namespace MajorProject

/-- Round a rational to the nearest integer, ties to even. -/
def rne (q : ℚ) : ℤ :=
  if q - ⌊q⌋ < 1/2 then ⌊q⌋
  else if 1/2 < q - ⌊q⌋ then ⌊q⌋ + 1
  else if 2 ∣ ⌊q⌋ then ⌊q⌋ else ⌊q⌋ + 1

theorem rne_le (q : ℚ) : (rne q : ℚ) ≤ q + 1/2 := by
  unfold rne
  have h1 := Int.floor_le q
  have h2 := Int.lt_floor_add_one q
  split_ifs with ha hb hc <;> push_cast <;> linarith

theorem le_rne (q : ℚ) : q - 1/2 ≤ (rne q : ℚ) := by
  unfold rne
  have h1 := Int.floor_le q
  have h2 := Int.lt_floor_add_one q
  split_ifs with ha hb hc <;> push_cast <;> linarith

theorem rne_mono {q r : ℚ} (h : q ≤ r) : rne q ≤ rne r := by
  by_contra hc
  push_neg at hc
  have h1 : (rne r : ℚ) + 1 ≤ (rne q : ℚ) := by
    have : rne r + 1 ≤ rne q := hc
    exact_mod_cast this
  have h2 := rne_le q
  have h3 := le_rne r
  have hqr : q = r := by linarith
  subst hqr
  exact absurd hc (lt_irrefl _)

theorem rne_intCast (n : ℤ) : rne (n : ℚ) = n := by
  unfold rne
  rw [Int.floor_intCast]
  norm_num

theorem rne_eq_of_lt_half {q : ℚ} {n : ℤ} (h1 : (n : ℚ) ≤ q) (h2 : q < (n : ℚ) + 1/2) :
    rne q = n := by
  have hf : ⌊q⌋ = n := Int.floor_eq_iff.mpr ⟨h1, by push_cast; linarith⟩
  unfold rne
  rw [hf]
  rw [if_pos (by linarith)]

theorem rne_eq_of_half_lt {q : ℚ} {n : ℤ} (h1 : (n : ℚ) + 1/2 < q) (h2 : q < (n : ℚ) + 1) :
    rne q = n + 1 := by
  have hf : ⌊q⌋ = n := Int.floor_eq_iff.mpr ⟨by linarith, by push_cast; linarith⟩
  unfold rne
  rw [hf]
  rw [if_neg (by linarith), if_pos (by linarith)]

theorem rne_tie_even {n : ℤ} (hn : 2 ∣ n) : rne ((n : ℚ) + 1/2) = n := by
  have hf : ⌊(n : ℚ) + 1/2⌋ = n := Int.floor_eq_iff.mpr ⟨by linarith, by push_cast; linarith⟩
  unfold rne
  rw [hf]
  rw [if_neg (by norm_num), if_neg (by norm_num), if_pos hn]

theorem rne_nonneg {q : ℚ} (h : 0 ≤ q) : 0 ≤ rne q := by
  have h1 := le_rne q
  have h2 : (-1 : ℚ) < (rne q : ℚ) := by linarith
  have h3 : (-1 : ℤ) < rne q := by exact_mod_cast h2
  omega

theorem rne_pos {q : ℚ} (h : 1/2 < q) : 1 ≤ rne q := by
  have h1 := le_rne q
  have h2 : (0 : ℚ) < (rne q : ℚ) := by linarith
  have h3 : (0 : ℤ) < rne q := by exact_mod_cast h2
  omega

/-- Binade exponent of the IEEE-754 binary64 value nearest to a positive
rational: the significand `x / 2 ^ flExp x` lies in `[2^52, 2^53)`. -/
def flExp (x : ℚ) : ℤ := Int.log 2 x - 52

/-- Nearest binary64 value (round to nearest, ties to even) of a positive
rational, with unbounded exponent range. -/
def flPos (x : ℚ) : ℚ := (rne (x / 2 ^ flExp x) : ℚ) * 2 ^ flExp x

/-- Nearest binary64 value of any rational. -/
def fl (x : ℚ) : ℚ :=
  if x = 0 then 0 else if 0 < x then flPos x else -flPos (-x)

theorem two_zpow_pos (e : ℤ) : (0:ℚ) < 2 ^ e := zpow_pos (by norm_num) e

theorem two_zpow_add (a b : ℤ) : (2:ℚ) ^ (a + b) = 2 ^ a * 2 ^ b :=
  zpow_add₀ (by norm_num) a b

theorem two_zpow_mono {a b : ℤ} (h : a ≤ b) : (2:ℚ) ^ a ≤ 2 ^ b :=
  zpow_le_zpow_right₀ (by norm_num) h

theorem two_zpow_ofNat (n : ℕ) : (2:ℚ) ^ (n : ℤ) = 2 ^ n := zpow_natCast 2 n

theorem flPos_mantissa_lb {x : ℚ} (hx : 0 < x) : (2:ℚ) ^ (52:ℤ) ≤ x / 2 ^ flExp x := by
  have h1 : ((2:ℕ):ℚ) ^ Int.log 2 x ≤ x := Int.zpow_log_le_self (by norm_num) hx
  have hc : ((2:ℕ):ℚ) = 2 := by norm_num
  rw [hc] at h1
  rw [le_div_iff (two_zpow_pos _)]
  have he : (52:ℤ) + flExp x = Int.log 2 x := by unfold flExp; ring
  calc (2:ℚ) ^ (52:ℤ) * 2 ^ flExp x = 2 ^ ((52:ℤ) + flExp x) := (two_zpow_add _ _).symm
    _ = 2 ^ Int.log 2 x := by rw [he]
    _ ≤ x := h1

theorem flPos_mantissa_ub {x : ℚ} (hx : 0 < x) : x / 2 ^ flExp x < (2:ℚ) ^ (53:ℤ) := by
  have h1 : x < ((2:ℕ):ℚ) ^ (Int.log 2 x + 1) := Int.lt_zpow_succ_log_self (by norm_num) x
  have hc : ((2:ℕ):ℚ) = 2 := by norm_num
  rw [hc] at h1
  rw [div_lt_iff (two_zpow_pos _)]
  have he : (53:ℤ) + flExp x = Int.log 2 x + 1 := by unfold flExp; ring
  calc x < 2 ^ (Int.log 2 x + 1) := h1
    _ = 2 ^ ((53:ℤ) + flExp x) := by rw [he]
    _ = 2 ^ (53:ℤ) * 2 ^ flExp x := two_zpow_add _ _

theorem flPos_lb {x : ℚ} (hx : 0 < x) : x - 2 ^ flExp x / 2 ≤ flPos x := by
  set E := (2:ℚ) ^ flExp x with hE
  have hp : 0 < E := two_zpow_pos _
  have h := le_rne (x / E)
  have h2 : (x / E - 1/2) * E ≤ (rne (x / E) : ℚ) * E := mul_le_mul_of_nonneg_right h hp.le
  have h3 : (x / E - 1/2) * E = x - E / 2 := by
    field_simp
    ring
  unfold flPos
  rw [← hE]
  linarith [h2, h3.symm.trans_le h2]

theorem flPos_ub {x : ℚ} (hx : 0 < x) : flPos x ≤ x + 2 ^ flExp x / 2 := by
  set E := (2:ℚ) ^ flExp x with hE
  have hp : 0 < E := two_zpow_pos _
  have h := rne_le (x / E)
  have h2 : (rne (x / E) : ℚ) * E ≤ (x / E + 1/2) * E := mul_le_mul_of_nonneg_right h hp.le
  have h3 : (x / E + 1/2) * E = x + E / 2 := by
    field_simp
    ring
  unfold flPos
  rw [← hE]
  linarith [h2, h3 ▸ h2]

theorem flExp_zpow_le {x : ℚ} (hx : 0 < x) : (2:ℚ) ^ flExp x ≤ x / 2 ^ (52:ℤ) := by
  have h1 := flPos_mantissa_lb hx
  rw [le_div_iff (two_zpow_pos _)] at h1 ⊢
  linarith [h1]

theorem flPos_err {x : ℚ} (hx : 0 < x) : |flPos x - x| ≤ x / 2 ^ (53:ℤ) := by
  have hlb := flPos_lb hx
  have hub := flPos_ub hx
  have h1 := flExp_zpow_le hx
  have h2 : (2:ℚ) ^ flExp x / 2 ≤ x / 2 ^ (53:ℤ) := by
    have he : (2:ℚ) ^ (53:ℤ) = 2 ^ (52:ℤ) * 2 := by
      rw [show (53:ℤ) = 52 + 1 by norm_num, two_zpow_add, zpow_one]
    rw [he]
    have hr : x / ((2:ℚ) ^ (52:ℤ) * 2) = x / 2 ^ (52:ℤ) / 2 := by ring
    rw [hr]
    linarith
  rw [abs_le]
  constructor <;> linarith

theorem flPos_pos {x : ℚ} (hx : 0 < x) : 0 < flPos x := by
  have h1 := flPos_mantissa_lb hx
  have hbig : (1/2 : ℚ) < 2 ^ (52:ℤ) := by
    have : (2:ℚ) ^ (0:ℤ) ≤ 2 ^ (52:ℤ) := two_zpow_mono (by norm_num)
    rw [zpow_zero] at this
    linarith
  have h2 := rne_pos (lt_of_lt_of_le hbig h1)
  have h3 : (1:ℚ) ≤ (rne (x / 2 ^ flExp x) : ℚ) := by exact_mod_cast h2
  unfold flPos
  exact mul_pos (by linarith) (two_zpow_pos _)

theorem flPos_le_pow {x : ℚ} (hx : 0 < x) : flPos x ≤ (2:ℚ) ^ (Int.log 2 x + 1) := by
  have h1 := flPos_mantissa_ub hx
  have h2 := rne_le (x / 2 ^ flExp x)
  have hm : (rne (x / 2 ^ flExp x) : ℚ) < 2 ^ (53:ℤ) + 1/2 := by linarith
  have hmz : rne (x / 2 ^ flExp x) ≤ 2 ^ 53 := by
    have hc : ((2:ℚ) ^ (53:ℤ)) = ((2 ^ 53 : ℤ) : ℚ) := by norm_num
    rw [hc] at hm
    have : (rne (x / 2 ^ flExp x) : ℚ) < ((2 ^ 53 : ℤ) : ℚ) + 1 := by linarith
    exact_mod_cast Int.lt_add_one_iff.mp (by exact_mod_cast this)
  have hmq : (rne (x / 2 ^ flExp x) : ℚ) ≤ 2 ^ (53:ℤ) := by
    have hc : ((2:ℚ) ^ (53:ℤ)) = ((2 ^ 53 : ℤ) : ℚ) := by norm_num
    rw [hc]
    exact_mod_cast hmz
  have he : (53:ℤ) + flExp x = Int.log 2 x + 1 := by unfold flExp; ring
  calc flPos x ≤ (2:ℚ) ^ (53:ℤ) * 2 ^ flExp x :=
        mul_le_mul_of_nonneg_right hmq (two_zpow_pos _).le
    _ = 2 ^ ((53:ℤ) + flExp x) := (two_zpow_add _ _).symm
    _ = 2 ^ (Int.log 2 x + 1) := by rw [he]

theorem pow_le_flPos {x : ℚ} (hx : 0 < x) : (2:ℚ) ^ Int.log 2 x ≤ flPos x := by
  have h1 := flPos_mantissa_lb hx
  have h2 := le_rne (x / 2 ^ flExp x)
  have hm : (2:ℚ) ^ (52:ℤ) - 1/2 ≤ (rne (x / 2 ^ flExp x) : ℚ) := by linarith
  have hmz : (2 ^ 52 : ℤ) ≤ rne (x / 2 ^ flExp x) := by
    have hc : ((2:ℚ) ^ (52:ℤ)) = ((2 ^ 52 : ℤ) : ℚ) := by norm_num
    rw [hc] at hm
    have : ((2 ^ 52 : ℤ) : ℚ) - 1 < (rne (x / 2 ^ flExp x) : ℚ) := by linarith
    have h4 : (2 ^ 52 : ℤ) - 1 < rne (x / 2 ^ flExp x) := by exact_mod_cast this
    omega
  have hmq : (2:ℚ) ^ (52:ℤ) ≤ (rne (x / 2 ^ flExp x) : ℚ) := by
    have hc : ((2:ℚ) ^ (52:ℤ)) = ((2 ^ 52 : ℤ) : ℚ) := by norm_num
    rw [hc]
    exact_mod_cast hmz
  have he : (52:ℤ) + flExp x = Int.log 2 x := by unfold flExp; ring
  calc (2:ℚ) ^ Int.log 2 x = 2 ^ ((52:ℤ) + flExp x) := by rw [he]
    _ = 2 ^ (52:ℤ) * 2 ^ flExp x := two_zpow_add _ _
    _ ≤ flPos x := mul_le_mul_of_nonneg_right hmq (two_zpow_pos _).le

theorem flPos_mono {x y : ℚ} (hx : 0 < x) (hxy : x ≤ y) : flPos x ≤ flPos y := by
  have hy : 0 < y := lt_of_lt_of_le hx hxy
  have hL : Int.log 2 x ≤ Int.log 2 y := Int.log_mono_right hx hxy
  rcases eq_or_lt_of_le hL with hE | hE
  · have he : flExp x = flExp y := by unfold flExp; omega
    unfold flPos
    rw [he]
    have hz : x / 2 ^ flExp y ≤ y / 2 ^ flExp y := by
      gcongr
    have hr := rne_mono hz
    exact mul_le_mul_of_nonneg_right (by exact_mod_cast hr) (two_zpow_pos _).le
  · calc flPos x ≤ (2:ℚ) ^ (Int.log 2 x + 1) := flPos_le_pow hx
      _ ≤ (2:ℚ) ^ Int.log 2 y := two_zpow_mono (by omega)
      _ ≤ flPos y := pow_le_flPos hy

theorem fl_of_pos {x : ℚ} (hx : 0 < x) : fl x = flPos x := by
  unfold fl
  rw [if_neg (ne_of_gt hx), if_pos hx]

theorem fl_zero : fl 0 = 0 := by
  unfold fl
  simp

theorem fl_pos {x : ℚ} (hx : 0 < x) : 0 < fl x := by
  rw [fl_of_pos hx]
  exact flPos_pos hx

theorem fl_nonneg {x : ℚ} (hx : 0 ≤ x) : 0 ≤ fl x := by
  rcases eq_or_lt_of_le hx with h | h
  · rw [← h, fl_zero]
  · exact (fl_pos h).le

theorem fl_mono {x y : ℚ} (hx : 0 ≤ x) (hxy : x ≤ y) : fl x ≤ fl y := by
  rcases eq_or_lt_of_le hx with h | h
  · rw [← h, fl_zero]
    exact fl_nonneg (le_trans hx hxy)
  · rw [fl_of_pos h, fl_of_pos (lt_of_lt_of_le h hxy)]
    exact flPos_mono h hxy

theorem fl_err {x : ℚ} (hx : 0 ≤ x) : |fl x - x| ≤ x / 2 ^ (53:ℤ) := by
  rcases eq_or_lt_of_le hx with h | h
  · rw [← h, fl_zero]
    norm_num
  · rw [fl_of_pos h]
    exact flPos_err h

theorem fl_eq_zero_iff {x : ℚ} (hx : 0 ≤ x) : fl x = 0 ↔ x = 0 := by
  constructor
  · intro h
    by_contra hne
    have hp : 0 < x := lt_of_le_of_ne hx (Ne.symm hne)
    exact absurd h (ne_of_gt (fl_pos hp))
  · intro h
    rw [h, fl_zero]

theorem flPos_eq_of {x : ℚ} (e m : ℤ) (h1 : (2:ℚ) ^ (e + 52) ≤ x) (h2 : x < 2 ^ (e + 53))
    (h3 : rne (x / 2 ^ e) = m) : flPos x = (m : ℚ) * 2 ^ e := by
  have hx : 0 < x := lt_of_lt_of_le (two_zpow_pos _) h1
  have hcast : ((2:ℕ):ℚ) = 2 := by norm_num
  have hl : e + 52 ≤ Int.log 2 x := by
    apply (Int.zpow_le_iff_le_log (by norm_num) hx).mp
    rw [hcast]
    exact h1
  have hu : Int.log 2 x < e + 53 := by
    apply (Int.lt_zpow_iff_log_lt (by norm_num) hx).mp
    rw [hcast]
    exact h2
  have he : flExp x = e := by unfold flExp; omega
  unfold flPos
  rw [he, h3]

theorem fl_eq_self_of {x : ℚ} (e m : ℤ) (h1 : 2 ^ 52 ≤ m) (h2 : m < 2 ^ 53)
    (hx : x = (m : ℚ) * 2 ^ e) : fl x = x := by
  have hm0 : (0:ℚ) < (m : ℚ) := by
    have : (0:ℤ) < m := by positivity
    exact_mod_cast this
  have hxpos : 0 < x := by
    rw [hx]
    exact mul_pos hm0 (two_zpow_pos e)
  rw [fl_of_pos hxpos]
  have hz : x / 2 ^ e = (m : ℚ) := by
    rw [hx]
    field_simp
  have h3 : rne (x / 2 ^ e) = m := by rw [hz]; exact rne_intCast m
  have hq1 : (2:ℚ) ^ (e + 52) ≤ x := by
    rw [hx, two_zpow_add]
    have : (2:ℚ) ^ (52:ℤ) ≤ (m : ℚ) := by
      have hc : ((2:ℚ) ^ (52:ℤ)) = ((2 ^ 52 : ℤ) : ℚ) := by norm_num
      rw [hc]
      exact_mod_cast h1
    calc (2:ℚ) ^ e * 2 ^ (52:ℤ) = 2 ^ (52:ℤ) * 2 ^ e := by ring
      _ ≤ (m : ℚ) * 2 ^ e := mul_le_mul_of_nonneg_right this (two_zpow_pos _).le
  have hq2 : x < (2:ℚ) ^ (e + 53) := by
    rw [hx, two_zpow_add]
    have : (m : ℚ) < (2:ℚ) ^ (53:ℤ) := by
      have hc : ((2:ℚ) ^ (53:ℤ)) = ((2 ^ 53 : ℤ) : ℚ) := by norm_num
      rw [hc]
      exact_mod_cast h2
    calc (m : ℚ) * 2 ^ e < (2:ℚ) ^ (53:ℤ) * 2 ^ e :=
          mul_lt_mul_of_pos_right this (two_zpow_pos _)
      _ = 2 ^ e * 2 ^ (53:ℤ) := by ring
  rw [flPos_eq_of e m hq1 hq2 h3, ← hx]

/-- CPython's `round(x, 1)` on a double of exact value `x`: correctly round
the exact value to one decimal digit (ties to even), then convert the decimal
back to the nearest double. -/
def pyRound1 (x : ℚ) : ℚ := fl ((rne (10 * x) : ℚ) / 10)

/-- The binary64 value of the Python literal `0.05`. -/
def d05 : ℚ := 3602879701896397 / 2 ^ 56

theorem d05_pos : 0 < d05 := by norm_num [d05]

theorem lt_d05 : 1/20 < d05 := by norm_num [d05]

theorem pyRound1_nonneg {x : ℚ} (hx : 0 ≤ x) : 0 ≤ pyRound1 x := by
  apply fl_nonneg
  have h := rne_nonneg (q := 10 * x) (by linarith)
  have h2 : (0:ℚ) ≤ (rne (10 * x) : ℚ) := by exact_mod_cast h
  linarith

theorem pyRound1_pos {x : ℚ} (hx : 1/20 < x) : 0 < pyRound1 x := by
  apply fl_pos
  have h := rne_pos (q := 10 * x) (by linarith)
  have h2 : (1:ℚ) ≤ (rne (10 * x) : ℚ) := by exact_mod_cast h
  linarith

theorem pyRound1_mono {x y : ℚ} (hx : 0 ≤ x) (hxy : x ≤ y) : pyRound1 x ≤ pyRound1 y := by
  apply fl_mono
  · have h := rne_nonneg (q := 10 * x) (by linarith)
    have h2 : (0:ℚ) ≤ (rne (10 * x) : ℚ) := by exact_mod_cast h
    linarith
  · have h := rne_mono (q := 10 * x) (r := 10 * y) (by linarith)
    have h2 : (rne (10 * x) : ℚ) ≤ (rne (10 * y) : ℚ) := by exact_mod_cast h
    linarith

theorem pyRound1_eq_zero_iff {x : ℚ} (hx : 0 ≤ x) : pyRound1 x = 0 ↔ rne (10 * x) = 0 := by
  unfold pyRound1
  have h := rne_nonneg (q := 10 * x) (by linarith)
  have h2 : (0:ℚ) ≤ (rne (10 * x) : ℚ) := by exact_mod_cast h
  rw [fl_eq_zero_iff (by linarith)]
  constructor
  · intro hz
    have : (rne (10 * x) : ℚ) = 0 := by
      field_simp at hz
      exact_mod_cast hz
    exact_mod_cast this
  · intro hz
    rw [hz]
    norm_num

/-- Concrete binary64 fixed points and roundings used by the witnesses. -/
theorem fl_one : fl 1 = 1 :=
  fl_eq_self_of (-52) (2 ^ 52) (by norm_num) (by norm_num) (by norm_num)

theorem fl_two : fl 2 = 2 :=
  fl_eq_self_of (-51) (2 ^ 52) (by norm_num) (by norm_num) (by norm_num)

theorem fl_five : fl 5 = 5 :=
  fl_eq_self_of (-50) 5629499534213120 (by norm_num) (by norm_num) (by norm_num)

theorem fl_ten : fl 10 = 10 :=
  fl_eq_self_of (-49) 5629499534213120 (by norm_num) (by norm_num) (by norm_num)

theorem fl_twenty : fl 20 = 20 :=
  fl_eq_self_of (-48) 5629499534213120 (by norm_num) (by norm_num) (by norm_num)

theorem fl_twentyfive : fl 25 = 25 :=
  fl_eq_self_of (-48) 7036874417766400 (by norm_num) (by norm_num) (by norm_num)

theorem fl_forty : fl 40 = 40 :=
  fl_eq_self_of (-47) 5629499534213120 (by norm_num) (by norm_num) (by norm_num)

theorem fl_fifty : fl 50 = 50 :=
  fl_eq_self_of (-47) 7036874417766400 (by norm_num) (by norm_num) (by norm_num)

theorem fl_twohundred : fl 200 = 200 :=
  fl_eq_self_of (-45) 7036874417766400 (by norm_num) (by norm_num) (by norm_num)

theorem fl_five_half : fl (5/2) = 5/2 :=
  fl_eq_self_of (-51) 5629499534213120 (by norm_num) (by norm_num) (by norm_num)

theorem fl_twentyfive_half : fl (25/2) = 25/2 :=
  fl_eq_self_of (-49) 7036874417766400 (by norm_num) (by norm_num) (by norm_num)

theorem fl_d05 : fl d05 = d05 :=
  fl_eq_self_of (-57) 7205759403792794 (by norm_num) (by norm_num) (by norm_num [d05])

theorem fl_5_d05 : fl (5 * d05) = 1/4 := by
  have hx : (0:ℚ) < 5 * d05 := by norm_num [d05]
  rw [fl_of_pos hx]
  have h3 : rne (5 * d05 / 2 ^ (-54:ℤ)) = 4503599627370496 := by
    rw [show 5 * d05 / 2 ^ (-54:ℤ) = 18014398509481985/4 by norm_num [d05]]
    exact rne_eq_of_lt_half (by norm_num) (by norm_num)
  rw [flPos_eq_of (-54) 4503599627370496 (by norm_num [d05]) (by norm_num [d05]) h3]
  norm_num

theorem fl_20_d05 : fl (20 * d05) = 1 := by
  have hx : (0:ℚ) < 20 * d05 := by norm_num [d05]
  rw [fl_of_pos hx]
  have h3 : rne (20 * d05 / 2 ^ (-52:ℤ)) = 4503599627370496 := by
    rw [show 20 * d05 / 2 ^ (-52:ℤ) = 18014398509481985/4 by norm_num [d05]]
    exact rne_eq_of_lt_half (by norm_num) (by norm_num)
  rw [flPos_eq_of (-52) 4503599627370496 (by norm_num [d05]) (by norm_num [d05]) h3]
  norm_num

theorem fl_40_d05 : fl (40 * d05) = 2 := by
  have hx : (0:ℚ) < 40 * d05 := by norm_num [d05]
  rw [fl_of_pos hx]
  have h3 : rne (40 * d05 / 2 ^ (-51:ℤ)) = 4503599627370496 := by
    rw [show 40 * d05 / 2 ^ (-51:ℤ) = 18014398509481985/4 by norm_num [d05]]
    exact rne_eq_of_lt_half (by norm_num) (by norm_num)
  rw [flPos_eq_of (-51) 4503599627370496 (by norm_num [d05]) (by norm_num [d05]) h3]
  norm_num

theorem fl_50_d05 : fl (50 * d05) = 5/2 := by
  have hx : (0:ℚ) < 50 * d05 := by norm_num [d05]
  rw [fl_of_pos hx]
  have h3 : rne (50 * d05 / 2 ^ (-51:ℤ)) = 5629499534213120 := by
    rw [show 50 * d05 / 2 ^ (-51:ℤ) = 90071992547409925/16 by norm_num [d05]]
    exact rne_eq_of_lt_half (by norm_num) (by norm_num)
  rw [flPos_eq_of (-51) 5629499534213120 (by norm_num [d05]) (by norm_num [d05]) h3]
  norm_num

theorem fl_200_d05 : fl (200 * d05) = 10 := by
  have hx : (0:ℚ) < 200 * d05 := by norm_num [d05]
  rw [fl_of_pos hx]
  have h3 : rne (200 * d05 / 2 ^ (-49:ℤ)) = 5629499534213120 := by
    rw [show 200 * d05 / 2 ^ (-49:ℤ) = 90071992547409925/16 by norm_num [d05]]
    exact rne_eq_of_lt_half (by norm_num) (by norm_num)
  rw [flPos_eq_of (-49) 5629499534213120 (by norm_num [d05]) (by norm_num [d05]) h3]
  norm_num

theorem fl_fifth : fl (1/5) = 3602879701896397 / 2 ^ 54 := by
  have hx : (0:ℚ) < 1/5 := by norm_num
  rw [fl_of_pos hx]
  have h3 : rne ((1:ℚ)/5 / 2 ^ (-55:ℤ)) = 7205759403792794 := by
    rw [show (1:ℚ)/5 / 2 ^ (-55:ℤ) = 36028797018963968/5 by norm_num]
    rw [show (7205759403792794:ℤ) = 7205759403792793 + 1 by norm_num]
    exact rne_eq_of_half_lt (by norm_num) (by norm_num)
  rw [flPos_eq_of (-55) 7205759403792794 (by norm_num) (by norm_num) h3]
  norm_num

theorem pyRound1_int (n : ℤ) (h : fl (n : ℚ) = (n : ℚ)) : pyRound1 (n : ℚ) = (n : ℚ) := by
  unfold pyRound1
  rw [show (10:ℚ) * (n : ℚ) = ((10 * n : ℤ) : ℚ) by push_cast; ring, rne_intCast]
  rw [show ((10 * n : ℤ) : ℚ) / 10 = (n : ℚ) by push_cast; ring]
  exact h

theorem pyRound1_one : pyRound1 1 = 1 := by
  have h := pyRound1_int 1 (by push_cast; exact fl_one)
  push_cast at h
  exact h

theorem pyRound1_two : pyRound1 2 = 2 := by
  have h := pyRound1_int 2 (by push_cast; exact fl_two)
  push_cast at h
  exact h

theorem pyRound1_ten : pyRound1 10 = 10 := by
  have h := pyRound1_int 10 (by push_cast; exact fl_ten)
  push_cast at h
  exact h

theorem pyRound1_five_half : pyRound1 (5/2) = 5/2 := by
  unfold pyRound1
  rw [show (10:ℚ) * (5/2) = ((25:ℤ) : ℚ) by norm_num, rne_intCast]
  rw [show ((25:ℤ) : ℚ) / 10 = (5/2 : ℚ) by norm_num]
  exact fl_five_half

theorem pyRound1_twentyfive_half : pyRound1 (25/2) = 25/2 := by
  unfold pyRound1
  rw [show (10:ℚ) * (25/2) = ((125:ℤ) : ℚ) by norm_num, rne_intCast]
  rw [show ((125:ℤ) : ℚ) / 10 = (25/2 : ℚ) by norm_num]
  exact fl_twentyfive_half

theorem pyRound1_quarter : pyRound1 (1/4) = 3602879701896397 / 2 ^ 54 := by
  unfold pyRound1
  have h : rne ((10:ℚ) * (1/4)) = 2 := by
    rw [show (10:ℚ) * (1/4) = ((2:ℤ) : ℚ) + 1/2 by norm_num]
    exact rne_tie_even (by norm_num)
  rw [h, show ((2:ℤ) : ℚ) / 10 = (1/5 : ℚ) by norm_num]
  exact fl_fifth

/-! ## Embedding of `src/compiled.py` -/

structure Crop where
  name : String
  hi_name : String
  n : ℤ
  p : ℤ
  k : ℤ
  limit : ℤ
  fert_name : String

def CROPS : List Crop :=
  [⟨"Rice", "चावल", 60, 30, 20, 250, "DAP"⟩,
   ⟨"Tomato", "टमाटर", 22, 35, 45, 300, "NPK 10-20-20"⟩,
   ⟨"Lettuce", "सलाद पत्ता", 18, 25, 30, 250, "NPK 15-15-15"⟩,
   ⟨"Carrot", "गाजर", 15, 30, 40, 350, "NPK 5-15-15"⟩,
   ⟨"Potato", "आलू", 25, 45, 50, 400, "NPK 8-24-24"⟩,
   ⟨"Wheat", "गेहूँ", 50, 30, 20, 350, "Urea"⟩]

structure Npk where
  n : ℤ
  p : ℤ
  k : ℤ

/-- Function `get_fixed_npk`: the fixed low-nutrient soil simulation. -/
def get_fixed_npk : Npk := ⟨20, 20, 20⟩

structure NpkPh where
  n : ℤ
  p : ℤ
  k : ℤ
  ph : ℚ

/-- Function `get_fixed_npk_ph`: the fixed data handed to the AI model. -/
def get_fixed_npk_ph : NpkPh := ⟨20, 20, 20, 13/2⟩

/-- Lines 159-162 of `compiled.py`: `water_needed = 0`, and when
`moisture > limit`, `water_needed = round((moisture - limit) * 0.05, 1)`
in binary64 arithmetic. -/
def water_needed (limit moisture : ℤ) : ℚ :=
  if limit < moisture then pyRound1 (fl (fl ((moisture : ℚ) - (limit : ℚ)) * d05)) else 0

/-- Lines 164-167 of `compiled.py`: `manure_needed = 0`, and when
`soil_npk['n'] < crop['n']`, `manure_needed = round((crop_n - soil_n) * 0.05, 1)`
in binary64 arithmetic. -/
def manure_needed (cropN soilN : ℤ) : ℚ :=
  if soilN < cropN then pyRound1 (fl (fl ((cropN : ℚ) - (soilN : ℚ)) * d05)) else 0

def healthyMsg : String :=
  "Mitti ki jaanch safal hui. Abhi kuch daalne ki awashyakta nahi hai aur paani bhi paryapt maatra mein hai."

def waterSufficientMsg : String := "Paani paryapt maatra mein hai. "

def fertSufficientMsg : String := "Khaad paryapt maatra mein hai."

def waterLine (w : ℚ) : String := toString w ++ " liter prati varg meter paani daalein. "

def manureLine (m : ℚ) (fert : String) : String :=
  toString m ++ " gram prati varg meter " ++ fert ++ " khaad daalein."

/-- Lines 169-182 of `compiled.py`: the result voice logic. -/
def voice_msg (w m : ℚ) (fert : String) : String :=
  if w = 0 ∧ m = 0 then healthyMsg
  else (if 0 < w then waterLine w else waterSufficientMsg) ++
    (if 0 < m then manureLine m fert else fertSufficientMsg)

inductive MsgKind
  | healthy
  | waterOnly
  | fertilizerOnly
  | both
deriving DecidableEq

/-- Classification of the voice message induced by the branch structure of
the result logic: `healthy` on the first branch, otherwise according to
which of the two quantities is positive. -/
def messageKind (w m : ℚ) : MsgKind :=
  if w = 0 ∧ m = 0 then MsgKind.healthy
  else if 0 < w ∧ 0 < m then MsgKind.both
  else if 0 < w then MsgKind.waterOnly
  else MsgKind.fertilizerOnly

structure AnalysisResult where
  water : ℚ
  manure : ℚ
  voice : String
  lcd1 : String
  lcd2 : String

/-- Function `analyze_specific_crop` for a given crop and live moisture reading;
nutrient values come from `get_fixed_npk` as in the code. -/
def analyze_specific_crop (crop : Crop) (moisture : ℤ) : AnalysisResult :=
  let w := water_needed crop.limit moisture
  let m := manure_needed crop.n get_fixed_npk.n
  ⟨w, m, voice_msg w m crop.fert_name,
    "Water: " ++ toString w ++ "L", "Fert: " ++ toString m ++ "g"⟩

/-- The decision tree of `run_dl_prediction` (lines 217-236), returning the
English and Hindi crop labels; `data` is the nutrient record and `moisture`
the live sensor reading. -/
def run_dl_prediction (data : NpkPh) (moisture : ℤ) : String × String :=
  if moisture < 250 then ("Rice", "Chaawal")
  else if 80 < data.n then ("Cotton", "Kapaas")
  else if data.ph < 11/2 then ("Potato", "Aaloo")
  else if data.n ≤ 30 then ("Legumes", "Dalhan Fasal")
  else ("Maize", "Makka")

structure LoopState where
  currentIndex : ℤ
  lastPos : ℤ
deriving DecidableEq

/-- Environment of one iteration of the main menu loop.  `pos` is
`encoder.steps` at the top of the iteration; the two flags per button are
its raw press sample and its re-read after the 0.1 s debounce sleep;
`postAnalyzeSteps` is the value `encoder.steps` has when it is read right
after `analyze_specific_crop` returns; `postPredictSteps` is the value the
encoder counter has when `run_dl_prediction` returns (the code never reads
it — it is recorded here so that resynchronization can be stated). -/
structure TickInput where
  pos : ℤ
  knobPressed : Bool
  knobPressedAfterDebounce : Bool
  aiPressed : Bool
  aiPressedAfterDebounce : Bool
  postAnalyzeSteps : ℤ
  postPredictSteps : ℤ

inductive Event
  | showMenu (idx : ℤ)
  | analyzeCrop (idx : ℤ)
  | predictCrop
deriving DecidableEq

/-- One iteration of the `while True` menu loop (lines 275-299): encoder
handling, then the knob (analysis) button, then the AI button. The emitted
`Event` list records the display refreshes and the actions run. -/
def tick (s : LoopState) (inp : TickInput) : LoopState × List Event :=
  let p1 :=
    if inp.pos ≠ s.lastPos then
      let ci := (s.currentIndex + (inp.pos - s.lastPos)) % (CROPS.length : ℤ)
      (LoopState.mk ci inp.pos, [Event.showMenu ci])
    else (s, [])
  let p2 :=
    if inp.knobPressed && inp.knobPressedAfterDebounce then
      (LoopState.mk p1.1.currentIndex inp.postAnalyzeSteps,
        p1.2 ++ [Event.analyzeCrop p1.1.currentIndex, Event.showMenu p1.1.currentIndex])
    else p1
  if inp.aiPressed && inp.aiPressedAfterDebounce then
    (p2.1, p2.2 ++ [Event.predictCrop, Event.showMenu p2.1.currentIndex])
  else p2

/-- One observable outcome of a step of the polling loop in
`get_real_moisture`: `outerErr` — the transport raised at
`reset_input_buffer` or while checking `in_waiting` (seen by the outer
handler); `noData` — `in_waiting == 0`, sleep and poll again; `readErr` —
`readline`/`decode` raised inside the inner `try`; `line s` — a text line
was read and decoded, `s` being its stripped character content. -/
inductive SerEvent
  | outerErr
  | noData
  | readErr
  | line (s : List Char)
deriving DecidableEq

/-- Python's `str.isdigit` on ASCII text: non-empty and all characters
decimal digits. -/
def pyIsdigit (s : List Char) : Bool := !s.isEmpty && s.all Char.isDigit

/-- Python's `int(s)` on a digit string: its decimal value. -/
def pyInt (s : List Char) : ℤ := s.foldl (fun acc c => 10 * acc + ((c.toNat : ℤ) - 48)) 0

/-- The `while True` polling loop of `get_real_moisture` (lines 110-119)
together with the surrounding `try`/`except` (lines 109-121), run over a
trace of serial events. -/
def readLoop : List SerEvent → Option ℤ
  | [] => none
  | SerEvent.outerErr :: _ => some 400
  | SerEvent.noData :: rest => readLoop rest
  | SerEvent.readErr :: rest => readLoop rest
  | SerEvent.line s :: rest =>
      if pyIsdigit s then some (pyInt s) else readLoop rest

/-- Function `get_real_moisture`: with no serial transport the fixed mock value 500
is returned immediately; otherwise the polling loop runs over the trace of
serial events. `none` models the loop still blocked waiting for data when
the finite trace ends. -/
def get_real_moisture (hasSer : Bool) (events : List SerEvent) : Option ℤ :=
  if hasSer then readLoop events else some 500

/-! ## Embedding of `src/major.py` -/

structure CropInfo where
  nitrogen : ℚ
  phosphorus : ℚ
  potassium : ℚ
  recommendation_fertilizer : String

structure SensorNpk where
  nitrogen : ℚ
  phosphorus : ℚ
  potassium : ℚ

def CROP_DATA : List (String × CropInfo) :=
  [("Rice", ⟨22, 35, 45, "NPK 10-20-20"⟩),
   ("Wheat", ⟨18, 25, 30, "Balanced NPK 15-15-15"⟩),
   ("Carrot", ⟨15, 30, 40, "Low-N NPK 5-15-15"⟩),
   ("Potato", ⟨25, 45, 50, "High-P/K NPK 8-24-24"⟩)]

def NUTRIENT_TO_FERTILIZER_FACTOR : ℚ := 1/2

/-- Python's `max(deficiencies, key=deficiencies.get)` over the
insertion-ordered dict N, P, K: a later entry replaces the running maximum
only on strict increase, so the first maximal nutrient wins ties. -/
def most_deficient (nd pd kd : ℚ) : String × ℚ :=
  let m1 := ("Nitrogen", nd)
  let m2 := if pd > m1.2 then ("Phosphorus", pd) else m1
  if kd > m2.2 then ("Potassium", kd) else m2

structure RecLines where
  line1 : String
  line2 : String
  line3 : String
  line4 : String
deriving DecidableEq

/-- Method `SoilAnalyzerApp.compute_recommendation` (lines 127-158 of `major.py`):
ideal levels of the selected crop and measured levels from the sensor in,
four display lines out. Subtractions and the factor multiplication are
binary64 operations on the sensor/table doubles. -/
def compute_recommendation (name : String) (ideal : CropInfo) (current : SensorNpk) : RecLines :=
  let n_diff := fl (ideal.nitrogen - current.nitrogen)
  let p_diff := fl (ideal.phosphorus - current.phosphorus)
  let k_diff := fl (ideal.potassium - current.potassium)
  let md := most_deficient n_diff p_diff k_diff
  if md.2 > 2 then
    let amount := pyRound1 (fl (md.2 * NUTRIENT_TO_FERTILIZER_FACTOR))
    ⟨"Recommendation:", "Add " ++ toString amount ++ " gm/sq.m",
      "of " ++ ideal.recommendation_fertilizer, "for " ++ md.1⟩
  else
    ⟨"Soil is healthy!", "No fertilizer", "needed for", name⟩

/-- Clockwise knob step of `SoilAnalyzerApp.run` (line 172 of `major.py`). -/
def knob_clockwise (i : ℤ) (n : ℕ) : ℤ := (i + 1) % (n : ℤ)

/-- Counter-clockwise knob step of `SoilAnalyzerApp.run` (line 174). -/
def knob_counterclockwise (i : ℤ) (n : ℕ) : ℤ := (i - 1 + (n : ℤ)) % (n : ℤ)

/-! ## Shared facts about the recommendation arithmetic -/

theorem calc_pos {d : ℤ} (hd : 1 ≤ d) : 0 < pyRound1 (fl (fl (d : ℚ) * d05)) := by
  have h1 : (1:ℚ) ≤ (d : ℚ) := by exact_mod_cast hd
  have hf1 : (1:ℚ) ≤ fl (d : ℚ) := by
    calc (1:ℚ) = fl 1 := fl_one.symm
      _ ≤ fl (d : ℚ) := fl_mono (by norm_num) h1
  have hprod : d05 ≤ fl (d : ℚ) * d05 := by nlinarith [d05_pos]
  have hX : d05 ≤ fl (fl (d : ℚ) * d05) := by
    calc d05 = fl d05 := fl_d05.symm
      _ ≤ fl (fl (d : ℚ) * d05) := fl_mono d05_pos.le hprod
  exact pyRound1_pos (lt_of_lt_of_le lt_d05 hX)

theorem calc_mono {d d' : ℤ} (h0 : 0 ≤ d) (h : d ≤ d') :
    pyRound1 (fl (fl (d : ℚ) * d05)) ≤ pyRound1 (fl (fl (d' : ℚ) * d05)) := by
  have hq : (d : ℚ) ≤ (d' : ℚ) := by exact_mod_cast h
  have h0q : (0:ℚ) ≤ (d : ℚ) := by exact_mod_cast h0
  have hf : fl (d : ℚ) ≤ fl (d' : ℚ) := fl_mono h0q hq
  have hfn : 0 ≤ fl (d : ℚ) := fl_nonneg h0q
  have hp : fl (d : ℚ) * d05 ≤ fl (d' : ℚ) * d05 := mul_le_mul_of_nonneg_right hf d05_pos.le
  have hpn : 0 ≤ fl (d : ℚ) * d05 := mul_nonneg hfn d05_pos.le
  have hX : fl (fl (d : ℚ) * d05) ≤ fl (fl (d' : ℚ) * d05) := fl_mono hpn hp
  exact pyRound1_mono (fl_nonneg hpn) hX

theorem water_needed_nonneg (t m : ℤ) : 0 ≤ water_needed t m := by
  unfold water_needed
  split_ifs with h
  · have hd : 1 ≤ m - t := by omega
    have := calc_pos hd
    rw [show (((m - t : ℤ)) : ℚ) = (m : ℚ) - (t : ℚ) by push_cast; ring] at this
    exact this.le
  · exact le_refl 0

theorem manure_needed_nonneg (tN n : ℤ) : 0 ≤ manure_needed tN n := by
  unfold manure_needed
  split_ifs with h
  · have hd : 1 ≤ tN - n := by omega
    have := calc_pos hd
    rw [show (((tN - n : ℤ)) : ℚ) = (tN : ℚ) - (n : ℚ) by push_cast; ring] at this
    exact this.le
  · exact le_refl 0

/-- C1: for every crop profile and moisture reading, `analyze_specific_crop`
computes `waterNeeded = round((moisture - dryThreshold) * 0.05, 1)` when
`moisture > dryThreshold` and `waterNeeded = 0` otherwise; `waterNeeded = 0`
iff `moisture ≤ dryThreshold`, and for `moisture > dryThreshold` it is
monotonically non-decreasing in the moisture. -/
theorem C1_water_needed (t m m' : ℤ) :
    water_needed t m = (if t < m then pyRound1 (fl (fl ((m : ℚ) - (t : ℚ)) * d05)) else 0) ∧
    (water_needed t m = 0 ↔ m ≤ t) ∧
    (t < m → m ≤ m' → water_needed t m ≤ water_needed t m') := by
  refine ⟨rfl, ⟨?_, ?_⟩, ?_⟩
  · intro h
    by_contra hm
    push_neg at hm
    have hd : 1 ≤ m - t := by omega
    have hpos := calc_pos hd
    rw [show (((m - t : ℤ)) : ℚ) = (m : ℚ) - (t : ℚ) by push_cast; ring] at hpos
    rw [water_needed, if_pos (by omega)] at h
    exact absurd h (ne_of_gt hpos)
  · intro h
    rw [water_needed, if_neg (by omega)]
  · intro h1 h2
    rw [water_needed, water_needed, if_pos h1, if_pos (by omega)]
    have := @calc_mono (m - t) (m' - t) (by omega) (by omega)
    rw [show (((m - t : ℤ)) : ℚ) = (m : ℚ) - (t : ℚ) by push_cast; ring,
      show (((m' - t : ℤ)) : ℚ) = (m' : ℚ) - (t : ℚ) by push_cast; ring] at this
    exact this

theorem C1_water_needed_witness :
    water_needed 400 450 ≠ 0 ∧ water_needed 400 450 ≤ water_needed 400 460 ∧
    water_needed 400 450 = 5/2 := by
  have h := C1_water_needed 400 450 460
  refine ⟨?_, h.2.2 (by norm_num) (by norm_num), ?_⟩
  · intro h0
    have := h.2.1.mp h0
    norm_num at this
  · rw [water_needed, if_pos (by norm_num)]
    rw [show ((450:ℤ) : ℚ) - ((400:ℤ) : ℚ) = (50:ℚ) by norm_num]
    rw [fl_fifty, fl_50_d05, pyRound1_five_half]

/-- C2: for every crop profile and reading, `analyze_specific_crop`
computes `fertilizerNeeded = round((targetN - reading.n) * 0.05, 1)` when
`reading.n < targetN` and `0` otherwise; `fertilizerNeeded = 0` iff
`reading.n ≥ targetN`. -/
theorem C2_manure_needed (tN n : ℤ) :
    manure_needed tN n = (if n < tN then pyRound1 (fl (fl ((tN : ℚ) - (n : ℚ)) * d05)) else 0) ∧
    (manure_needed tN n = 0 ↔ tN ≤ n) := by
  refine ⟨rfl, ?_, ?_⟩
  · intro h
    by_contra hm
    push_neg at hm
    have hd : 1 ≤ tN - n := by omega
    have hpos := calc_pos hd
    rw [show (((tN - n : ℤ)) : ℚ) = (tN : ℚ) - (n : ℚ) by push_cast; ring] at hpos
    rw [manure_needed, if_pos (by omega)] at h
    exact absurd h (ne_of_gt hpos)
  · intro h
    rw [manure_needed, if_neg (by omega)]

theorem C2_manure_needed_witness :
    manure_needed 50 30 ≠ 0 ∧ manure_needed 50 30 = 1 := by
  have h := C2_manure_needed 50 30
  refine ⟨?_, ?_⟩
  · intro h0
    have := h.2.mp h0
    norm_num at this
  · rw [manure_needed, if_pos (by norm_num)]
    rw [show ((50:ℤ) : ℚ) - ((30:ℤ) : ℚ) = (20:ℚ) by norm_num]
    rw [fl_twenty, fl_20_d05, pyRound1_one]

/-- C3: the AI prediction engine evaluates its branches strictly in the
order moisture < 250 → Rice, then n > 80 → Cotton, then ph < 5.5 → Potato,
then n ≤ 30 → Legumes, otherwise Maize; for an input satisfying several
branch conditions the earliest matching branch wins — in particular an
input with both moisture < 250 and n > 80 yields Rice — and the fixed input
{n:20, p:20, k:20, ph:6.5} with moisture 200 yields Rice. -/
theorem C3_decision_tree (data : NpkPh) (moisture : ℤ) :
    (moisture < 250 → run_dl_prediction data moisture = ("Rice", "Chaawal")) ∧
    (250 ≤ moisture → 80 < data.n →
      run_dl_prediction data moisture = ("Cotton", "Kapaas")) ∧
    (250 ≤ moisture → data.n ≤ 80 → data.ph < 11/2 →
      run_dl_prediction data moisture = ("Potato", "Aaloo")) ∧
    (250 ≤ moisture → data.n ≤ 80 → 11/2 ≤ data.ph → data.n ≤ 30 →
      run_dl_prediction data moisture = ("Legumes", "Dalhan Fasal")) ∧
    (250 ≤ moisture → data.n ≤ 80 → 11/2 ≤ data.ph → 30 < data.n →
      run_dl_prediction data moisture = ("Maize", "Makka")) ∧
    (moisture < 250 → 80 < data.n → run_dl_prediction data moisture = ("Rice", "Chaawal")) ∧
    run_dl_prediction get_fixed_npk_ph 200 = ("Rice", "Chaawal") := by
  refine ⟨?_, ?_, ?_, ?_, ?_, ?_, rfl⟩
  · intro h1
    rw [run_dl_prediction, if_pos h1]
  · intro h1 h2
    rw [run_dl_prediction, if_neg (by omega), if_pos h2]
  · intro h1 h2 h3
    rw [run_dl_prediction, if_neg (by omega), if_neg (by omega), if_pos h3]
  · intro h1 h2 h3 h4
    rw [run_dl_prediction, if_neg (by omega), if_neg (by omega), if_neg (by linarith),
      if_pos h4]
  · intro h1 h2 h3 h4
    rw [run_dl_prediction, if_neg (by omega), if_neg (by omega), if_neg (by linarith),
      if_neg (by omega)]
  · intro h1 _
    rw [run_dl_prediction, if_pos h1]

theorem C3_decision_tree_witness :
    run_dl_prediction ⟨100, 20, 20, 13/2⟩ 200 = ("Rice", "Chaawal") :=
  (C3_decision_tree ⟨100, 20, 20, 13/2⟩ 200).2.2.2.2.2.1 (by norm_num) (by norm_num)

/-- C4: for every crop profile and reading, the message kind is `healthy`
exactly when both computed quantities are 0; otherwise the voice message
names each non-zero quantity with its unit (and the crop's fertilizer
product name for the fertilizer quantity) and voices an explicit
sufficiency confirmation for whichever quantity is zero; the voice of
`analyze_specific_crop` is this message at the fixed soil nutrients. -/
theorem C4_message_kind (crop : Crop) (moisture soilN : ℤ) :
    (messageKind (water_needed crop.limit moisture) (manure_needed crop.n soilN) =
        MsgKind.healthy ↔
      water_needed crop.limit moisture = 0 ∧ manure_needed crop.n soilN = 0) ∧
    (water_needed crop.limit moisture = 0 → manure_needed crop.n soilN = 0 →
      voice_msg (water_needed crop.limit moisture) (manure_needed crop.n soilN)
        crop.fert_name = healthyMsg) ∧
    (0 < water_needed crop.limit moisture → 0 < manure_needed crop.n soilN →
      voice_msg (water_needed crop.limit moisture) (manure_needed crop.n soilN)
        crop.fert_name =
        waterLine (water_needed crop.limit moisture) ++
          manureLine (manure_needed crop.n soilN) crop.fert_name) ∧
    (0 < water_needed crop.limit moisture → manure_needed crop.n soilN = 0 →
      voice_msg (water_needed crop.limit moisture) (manure_needed crop.n soilN)
        crop.fert_name =
        waterLine (water_needed crop.limit moisture) ++ fertSufficientMsg) ∧
    (water_needed crop.limit moisture = 0 → 0 < manure_needed crop.n soilN →
      voice_msg (water_needed crop.limit moisture) (manure_needed crop.n soilN)
        crop.fert_name =
        waterSufficientMsg ++ manureLine (manure_needed crop.n soilN) crop.fert_name) ∧
    (analyze_specific_crop crop moisture).voice =
      voice_msg (water_needed crop.limit moisture) (manure_needed crop.n get_fixed_npk.n)
        crop.fert_name := by
  refine ⟨?_, ?_, ?_, ?_, ?_, rfl⟩
  · unfold messageKind
    split_ifs with h1 h2 h3
    · exact iff_of_true rfl h1
    · exact iff_of_false (by decide) h1
    · exact iff_of_false (by decide) h1
    · exact iff_of_false (by decide) h1
  · intro h1 h2
    rw [voice_msg, if_pos ⟨h1, h2⟩]
  · intro h1 h2
    rw [voice_msg, if_neg (by rintro ⟨ha, hb⟩; exact absurd ha (ne_of_gt h1)),
      if_pos h1, if_pos h2]
  · intro h1 h2
    rw [voice_msg, if_neg (by rintro ⟨ha, hb⟩; exact absurd ha (ne_of_gt h1)),
      if_pos h1, if_neg (by rw [h2]; exact lt_irrefl 0)]
  · intro h1 h2
    rw [voice_msg, if_neg (by rintro ⟨ha, hb⟩; exact absurd hb (ne_of_gt h2)),
      if_neg (by rw [h1]; exact lt_irrefl 0), if_pos h2]

theorem C4_message_kind_witness :
    messageKind (water_needed 250 250) (manure_needed 60 60) = MsgKind.healthy ∧
    voice_msg (water_needed 250 250) (manure_needed 60 60) ("DAP") = healthyMsg ∧
    voice_msg (water_needed 250 450) (manure_needed 60 20) ("DAP") =
      waterLine 10 ++ manureLine 2 ("DAP") := by
  have hw0 : water_needed 250 250 = 0 := by
    rw [water_needed, if_neg (by norm_num)]
  have hm0 : manure_needed 60 60 = 0 := by
    rw [manure_needed, if_neg (by norm_num)]
  have hw10 : water_needed 250 450 = 10 := by
    rw [water_needed, if_pos (by norm_num)]
    rw [show ((450:ℤ) : ℚ) - ((250:ℤ) : ℚ) = (200:ℚ) by norm_num]
    rw [fl_twohundred, fl_200_d05, pyRound1_ten]
  have hm2 : manure_needed 60 20 = 2 := by
    rw [manure_needed, if_pos (by norm_num)]
    rw [show ((60:ℤ) : ℚ) - ((20:ℤ) : ℚ) = (40:ℚ) by norm_num]
    rw [fl_forty, fl_40_d05, pyRound1_two]
  have h1 := C4_message_kind ⟨"Rice", "c", 60, 30, 20, 250, "DAP"⟩ 250 60
  have h2 := C4_message_kind ⟨"Rice", "c", 60, 30, 20, 250, "DAP"⟩ 450 20
  refine ⟨h1.1.mpr ⟨hw0, hm0⟩, h1.2.1 hw0 hm0, ?_⟩
  have h3 := h2.2.2.1 (by rw [hw10]; norm_num) (by rw [hm2]; norm_num)
  rw [hw10, hm2] at h3
  rw [hw10, hm2]
  exact h3

theorem tick_currentIndex (s : LoopState) (inp : TickInput) :
    (tick s inp).1.currentIndex =
      (if inp.pos ≠ s.lastPos then
        (s.currentIndex + (inp.pos - s.lastPos)) % (CROPS.length : ℤ)
      else s.currentIndex) := by
  simp only [tick]
  split_ifs <;> rfl

theorem tick_lastPos (s : LoopState) (inp : TickInput) :
    (tick s inp).1.lastPos =
      (if inp.knobPressed && inp.knobPressedAfterDebounce then inp.postAnalyzeSteps
      else if inp.pos ≠ s.lastPos then inp.pos
      else s.lastPos) := by
  simp only [tick]
  split_ifs <;> rfl

/-- C5: for every starting index and every integer encoder delta (positive,
negative, or of magnitude exceeding the crop count) the updated index is
`(start + delta) mod cropCount`, which lies in `[0, cropCount)`; the
arithmetic is total (no exception on negative deltas), a valid current
index stays valid across a loop iteration, and the ±1 steps of the
`major.py` variant reduce to the same formula and stay in range. -/
theorem C5_index_wraparound (start delta : ℤ) (n : ℕ) (hn : 0 < n)
    (s : LoopState) (inp : TickInput) :
    (0 ≤ (start + delta) % (n : ℤ) ∧ (start + delta) % (n : ℤ) < (n : ℤ)) ∧
    (tick s inp).1.currentIndex =
      (if inp.pos ≠ s.lastPos then
        (s.currentIndex + (inp.pos - s.lastPos)) % (CROPS.length : ℤ)
      else s.currentIndex) ∧
    (0 ≤ s.currentIndex → s.currentIndex < (CROPS.length : ℤ) →
      0 ≤ (tick s inp).1.currentIndex ∧ (tick s inp).1.currentIndex < (CROPS.length : ℤ)) ∧
    knob_clockwise start n = (start + 1) % (n : ℤ) ∧
    knob_counterclockwise start n = (start + (-1)) % (n : ℤ) ∧
    (0 ≤ knob_clockwise start n ∧ knob_clockwise start n < (n : ℤ)) ∧
    (0 ≤ knob_counterclockwise start n ∧ knob_counterclockwise start n < (n : ℤ)) := by
  have hnz : (n : ℤ) ≠ 0 := by exact_mod_cast hn.ne'
  have hnp : (0 : ℤ) < (n : ℤ) := by exact_mod_cast hn
  refine ⟨⟨Int.emod_nonneg _ hnz, Int.emod_lt_of_pos _ hnp⟩, tick_currentIndex s inp,
    ?_, rfl, ?_, ?_, ?_⟩
  · intro ha hb
    rw [tick_currentIndex]
    split_ifs with h
    · constructor
      · exact Int.emod_nonneg _ (by norm_num [CROPS])
      · exact Int.emod_lt_of_pos _ (by norm_num [CROPS])
    · exact ⟨ha, hb⟩
  · unfold knob_counterclockwise
    rw [show start - 1 + (n : ℤ) = start + (-1) + 1 * (n : ℤ) by ring]
    rw [Int.add_mul_emod_self]
  · exact ⟨Int.emod_nonneg _ hnz, Int.emod_lt_of_pos _ hnp⟩
  · exact ⟨Int.emod_nonneg _ hnz, Int.emod_lt_of_pos _ hnp⟩

theorem C5_index_wraparound_witness :
    (0 ≤ ((5:ℤ) + (-13)) % ((6:ℕ) : ℤ) ∧ ((5:ℤ) + (-13)) % ((6:ℕ) : ℤ) < ((6:ℕ) : ℤ)) ∧
    ((5:ℤ) + (-13)) % ((6:ℕ) : ℤ) = 4 :=
  ⟨(C5_index_wraparound 5 (-13) 6 (by norm_num) ⟨0, 0⟩
      ⟨0, false, false, false, false, 0, 0⟩).1, by decide⟩

/-- Modelled from the spec: §4.3 prescribes rounding "half-away-from-zero to
one decimal place" for the two recommended quantities. -/
def roundHalfAwayFromZero1 (x : ℚ) : ℚ :=
  if x < 0 then -((⌊10 * (-x) + 1/2⌋ : ℚ) / 10) else (⌊10 * x + 1/2⌋ : ℚ) / 10

/-- C6 counterexample: at dry threshold 250 and moisture 255 the code rounds
`5 * 0.05 = 0.25` down to 0.2 (the double nearest 0.2), while
half-away-from-zero rounding of `(255 - 250) * 0.05` gives 0.3. -/
theorem C6_counterexample :
    water_needed 250 255 ≠ roundHalfAwayFromZero1 (((255:ℚ) - 250) * (1/20)) ∧
    roundHalfAwayFromZero1 (((255:ℚ) - 250) * (1/20)) = 3/10 ∧
    water_needed 250 255 = 3602879701896397 / 2 ^ 54 := by
  have hw : water_needed 250 255 = 3602879701896397 / 2 ^ 54 := by
    rw [water_needed, if_pos (by norm_num)]
    rw [show ((255:ℤ) : ℚ) - ((250:ℤ) : ℚ) = (5:ℚ) by norm_num]
    rw [fl_five, fl_5_d05, pyRound1_quarter]
  have hx : ((255:ℚ) - 250) * (1/20) = 1/4 := by norm_num
  have hr : roundHalfAwayFromZero1 (((255:ℚ) - 250) * (1/20)) = 3/10 := by
    rw [hx, roundHalfAwayFromZero1, if_neg (by norm_num)]
    rw [show (10:ℚ) * (1/4) + 1/2 = ((3:ℤ) : ℚ) by norm_num, Int.floor_intCast]
    norm_num
  refine ⟨?_, hr, hw⟩
  rw [hw, hr]
  norm_num

theorem pyRound1_near_tenth {x : ℚ} (hx : 0 ≤ x) :
    ∃ j : ℕ, pyRound1 x = fl ((j : ℚ) / 10) ∧
      |pyRound1 x - (j : ℚ) / 10| ≤ ((j : ℚ) / 10) / 2 ^ (53:ℤ) := by
  have hr : 0 ≤ rne (10 * x) := rne_nonneg (by linarith)
  have hcast : (((rne (10 * x)).toNat : ℕ) : ℚ) = ((rne (10 * x) : ℤ) : ℚ) := by
    rw [show (((rne (10 * x)).toNat : ℕ) : ℚ) = (((rne (10 * x)).toNat : ℤ) : ℚ) by push_cast; ring]
    rw [Int.toNat_of_nonneg hr]
  refine ⟨(rne (10 * x)).toNat, ?_, ?_⟩
  · unfold pyRound1
    congr 2
    exact hcast.symm
  · rw [hcast]
    unfold pyRound1
    have hq : (0:ℚ) ≤ (rne (10 * x) : ℚ) / 10 := by
      have : (0:ℚ) ≤ (rne (10 * x) : ℚ) := by exact_mod_cast hr
      linarith
    exact fl_err hq

/-- C6 (amended): the rounding applied to `waterNeeded` and
`fertilizerNeeded` is round-half-to-even (Python's `round`) rather than
half-away-from-zero; both quantities are never negative; each equals the
binary64 value nearest to a multiple of 0.1 (so a multiple of 0.1 up to
relative error `2^-53`); at the tie `(255-250)*0.05 = 0.25` the result is
the even choice 0.2. -/
theorem C6_rounding (t m cn sn : ℤ) :
    0 ≤ water_needed t m ∧ 0 ≤ manure_needed cn sn ∧
    (∃ j : ℕ, water_needed t m = fl ((j : ℚ) / 10) ∧
      |water_needed t m - (j : ℚ) / 10| ≤ ((j : ℚ) / 10) / 2 ^ (53:ℤ)) ∧
    (∃ j : ℕ, manure_needed cn sn = fl ((j : ℚ) / 10) ∧
      |manure_needed cn sn - (j : ℚ) / 10| ≤ ((j : ℚ) / 10) / 2 ^ (53:ℤ)) ∧
    water_needed 250 255 = fl (2/10) := by
  have hnw := water_needed_nonneg t m
  have hnm := manure_needed_nonneg cn sn
  refine ⟨hnw, hnm, ?_, ?_, ?_⟩
  · unfold water_needed
    split_ifs with h
    · exact pyRound1_near_tenth (fl_nonneg (mul_nonneg (fl_nonneg (by
        have : (t : ℚ) ≤ (m : ℚ) := by exact_mod_cast h.le
        linarith)) d05_pos.le))
    · exact ⟨0, by norm_num [fl_zero], by norm_num⟩
  · unfold manure_needed
    split_ifs with h
    · exact pyRound1_near_tenth (fl_nonneg (mul_nonneg (fl_nonneg (by
        have : (sn : ℚ) ≤ (cn : ℚ) := by exact_mod_cast h.le
        linarith)) d05_pos.le))
    · exact ⟨0, by norm_num [fl_zero], by norm_num⟩
  · rw [water_needed, if_pos (by norm_num)]
    rw [show ((255:ℤ) : ℚ) - ((250:ℤ) : ℚ) = (5:ℚ) by norm_num]
    rw [fl_five, fl_5_d05, pyRound1_quarter]
    rw [show (2:ℚ)/10 = 1/5 by norm_num, fl_fifth]

theorem tick_refresh (s : LoopState) (inp : TickInput)
    (h : (inp.knobPressed && inp.knobPressedAfterDebounce) = true ∨
      (inp.aiPressed && inp.aiPressedAfterDebounce) = true) :
    (tick s inp).2.getLast? = some (Event.showMenu (tick s inp).1.currentIndex) := by
  simp only [tick]
  split_ifs with h1 h2 h3 <;> first
    | rfl
    | (rcases h with h | h <;> simp_all)

/-- C7 (amended): after the Analyzing action (knob button) completes, the
loop refreshes the menu display and resynchronizes `lastEncoderPosition` to
the encoder counter read after the action; after the Predicting action (AI
button) completes, the loop refreshes the menu display and returns to the
menu, but does NOT resynchronize `lastEncoderPosition` — it keeps its
pre-action value, so encoder motion during the blocking prediction causes
an index jump on the next iteration. -/
theorem C7_menu_return (s : LoopState) (inp : TickInput) :
    ((inp.knobPressed && inp.knobPressedAfterDebounce) = true →
      (tick s inp).1.lastPos = inp.postAnalyzeSteps) ∧
    ((inp.knobPressed && inp.knobPressedAfterDebounce) = false →
      (inp.aiPressed && inp.aiPressedAfterDebounce) = true →
      (tick s inp).1.lastPos = (if inp.pos ≠ s.lastPos then inp.pos else s.lastPos)) ∧
    ((inp.knobPressed && inp.knobPressedAfterDebounce) = true ∨
      (inp.aiPressed && inp.aiPressedAfterDebounce) = true →
      (tick s inp).2.getLast? = some (Event.showMenu (tick s inp).1.currentIndex)) := by
  refine ⟨?_, ?_, tick_refresh s inp⟩
  · intro h
    rw [tick_lastPos, if_pos h]
  · intro h _
    rw [tick_lastPos, if_neg (by simp [h])]

/-- C7 counterexample: a tick in which only the AI button fires, with the
encoder counter at 5 when the prediction finishes, leaves
`lastEncoderPosition` at its stale value 0 instead of resynchronizing it. -/
theorem C7_counterexample :
    (tick ⟨0, 0⟩ ⟨0, false, false, true, true, 0, 5⟩).2 =
      [Event.predictCrop, Event.showMenu 0] ∧
    (tick ⟨0, 0⟩ ⟨0, false, false, true, true, 0, 5⟩).1.lastPos = 0 ∧
    (tick ⟨0, 0⟩ ⟨0, false, false, true, true, 0, 5⟩).1.lastPos ≠
      (⟨0, false, false, true, true, 0, 5⟩ : TickInput).postPredictSteps := by
  refine ⟨rfl, rfl, ?_⟩
  intro h
  exact absurd h (by decide)

theorem C7_menu_return_witness :
    (tick ⟨0, 3⟩ ⟨3, true, true, false, false, 7, 0⟩).1.lastPos = 7 ∧
    (tick ⟨0, 3⟩ ⟨3, true, true, false, false, 7, 0⟩).2.getLast? =
      some (Event.showMenu 0) := by
  have h := C7_menu_return ⟨0, 3⟩ ⟨3, true, true, false, false, 7, 0⟩
  refine ⟨h.1 rfl, ?_⟩
  have h2 := h.2.2 (Or.inl rfl)
  exact h2

/-- C8 (amended): a transport error at buffer reset or while polling
`in_waiting` is caught by the outer handler and the fixed default 400 is
returned; a transport or decode error raised inside `readline` is caught by
the inner bare `except`, discarded, and the loop simply continues — a later
valid line may then be returned instead of the default; in either case no
error propagates out of `get_real_moisture`. -/
theorem C8_error_handling (rest : List SerEvent) :
    readLoop (SerEvent.outerErr :: rest) = some 400 ∧
    readLoop (SerEvent.readErr :: rest) = readLoop rest ∧
    get_real_moisture true (SerEvent.outerErr :: rest) = some 400 :=
  ⟨rfl, rfl, rfl⟩

/-- C8 counterexample: a transport error during `readline` followed by a
valid line "300" makes `get_real_moisture` return 300, not the fixed
default 400 — the inner handler swallows the error and the read goes on. -/
theorem C8_counterexample :
    readLoop [SerEvent.readErr, SerEvent.line (['3', '0', '0'])] = some 300 ∧
    get_real_moisture true [SerEvent.readErr, SerEvent.line (['3', '0', '0'])] = some 300 ∧
    (300 : ℤ) ≠ 400 := by
  refine ⟨?_, ?_, by decide⟩ <;> decide

/-- C9 counterexample: with no transport the moisture value is the constant
500 whatever happens on the wire — the function ignores its environment
entirely, so it is not drawn from a random generator over a range, and a
pending parseable line "123" is not read either. -/
theorem C9_counterexample :
    (fun events => get_real_moisture false events) = (fun _ => some 500) ∧
    get_real_moisture false [SerEvent.line (['1', '2', '3'])] = some 500 ∧
    get_real_moisture false [] ≠ some 400 := by
  refine ⟨funext fun _ => rfl, rfl, ?_⟩
  intro h
  exact absurd h (by decide)

/-- C9 (amended): when no sensor transport is available, every moisture
reading is the fixed mock constant 500 — not read from the transport and
not randomly drawn — which is distinct from the per-read error fallback
400, and the reader always produces a value, so the process continues. -/
theorem C9_no_hardware_fallback (events : List SerEvent) :
    get_real_moisture false events = some 500 ∧
    get_real_moisture false events ≠ some 400 ∧ (500 : ℤ) ≠ 400 := by
  refine ⟨rfl, ?_, by decide⟩
  rw [show get_real_moisture false events = some 500 from rfl]
  intro h
  exact absurd h (by decide)

theorem most_deficient_snd (a b c : ℚ) : (most_deficient a b c).2 = max a (max b c) := by
  unfold most_deficient
  dsimp only
  split_ifs with h1 h2 h3
  · dsimp only at h1 h2 ⊢
    rw [max_eq_right h2.le, max_eq_right (by linarith : a ≤ c)]
  · dsimp only at h1 h2 ⊢
    push_neg at h2
    rw [max_eq_left h2, max_eq_right h1.le]
  · dsimp only at h1 h3 ⊢
    push_neg at h1
    rw [max_eq_right (by linarith : b ≤ c), max_eq_right (by linarith : a ≤ c)]
  · dsimp only at h1 h3 ⊢
    push_neg at h1 h3
    exact (max_eq_left (max_le h1 h3)).symm

theorem most_deficient_fst (a b c : ℚ) :
    ((most_deficient a b c).1 = "Nitrogen" ∨ (most_deficient a b c).1 = "Phosphorus" ∨
      (most_deficient a b c).1 = "Potassium") ∧
    ((most_deficient a b c).1 = "Nitrogen" → a = max a (max b c)) ∧
    ((most_deficient a b c).1 = "Phosphorus" → b = max a (max b c)) ∧
    ((most_deficient a b c).1 = "Potassium" → c = max a (max b c)) := by
  have hs := most_deficient_snd a b c
  unfold most_deficient at hs ⊢
  dsimp only at hs ⊢
  split_ifs at hs ⊢ with h1 h2 h3
  · dsimp only at hs ⊢
    exact ⟨Or.inr (Or.inr rfl), fun h => absurd h (by simp), fun h => absurd h (by simp),
      fun _ => hs⟩
  · dsimp only at hs ⊢
    exact ⟨Or.inr (Or.inl rfl), fun h => absurd h (by simp), fun _ => hs,
      fun h => absurd h (by simp)⟩
  · dsimp only at hs ⊢
    exact ⟨Or.inr (Or.inr rfl), fun h => absurd h (by simp), fun h => absurd h (by simp),
      fun _ => hs⟩
  · dsimp only at hs ⊢
    exact ⟨Or.inl rfl, fun _ => hs, fun h => absurd h (by simp),
      fun h => absurd h (by simp)⟩

/-- C10: in the `major.py` variant, `compute_recommendation` reports
"Soil is healthy!" exactly when the maximum deficiency among nitrogen,
phosphorus and potassium (ideal level minus measured level, computed in
binary64) is at most 2.0; otherwise it recommends the single most-deficient
nutrient (the first of N, P, K on ties) with quantity
`round(maxDeficiency * 0.5, 1)` gm/sq.m of the selected crop's fertilizer
product. The algorithm differs from the nitrogen-only formula of the other
variant: at Rice ideals and measured levels (22, 35, 20) it recommends
Potassium. -/
theorem C10_compute_recommendation (name : String) (ideal : CropInfo) (cur : SensorNpk) :
    ((compute_recommendation name ideal cur).line1 = "Soil is healthy!" ↔
      max (fl (ideal.nitrogen - cur.nitrogen))
        (max (fl (ideal.phosphorus - cur.phosphorus))
          (fl (ideal.potassium - cur.potassium))) ≤ 2) ∧
    (2 < max (fl (ideal.nitrogen - cur.nitrogen))
        (max (fl (ideal.phosphorus - cur.phosphorus))
          (fl (ideal.potassium - cur.potassium))) →
      compute_recommendation name ideal cur =
        ⟨"Recommendation:",
          "Add " ++ toString (pyRound1 (fl (max (fl (ideal.nitrogen - cur.nitrogen))
            (max (fl (ideal.phosphorus - cur.phosphorus))
              (fl (ideal.potassium - cur.potassium))) * NUTRIENT_TO_FERTILIZER_FACTOR))) ++
            " gm/sq.m",
          "of " ++ ideal.recommendation_fertilizer,
          "for " ++ (most_deficient (fl (ideal.nitrogen - cur.nitrogen))
            (fl (ideal.phosphorus - cur.phosphorus))
            (fl (ideal.potassium - cur.potassium))).1⟩) ∧
    (max (fl (ideal.nitrogen - cur.nitrogen))
        (max (fl (ideal.phosphorus - cur.phosphorus))
          (fl (ideal.potassium - cur.potassium))) ≤ 2 →
      compute_recommendation name ideal cur =
        ⟨"Soil is healthy!", "No fertilizer", "needed for", name⟩) ∧
    ((most_deficient (fl (ideal.nitrogen - cur.nitrogen))
        (fl (ideal.phosphorus - cur.phosphorus))
        (fl (ideal.potassium - cur.potassium))).1 = "Potassium" →
      fl (ideal.potassium - cur.potassium) =
        max (fl (ideal.nitrogen - cur.nitrogen))
          (max (fl (ideal.phosphorus - cur.phosphorus))
            (fl (ideal.potassium - cur.potassium)))) ∧
    (compute_recommendation ("Rice") ⟨22, 35, 45, "NPK 10-20-20"⟩ ⟨22, 35, 20⟩).line4 =
      "for Potassium" := by
  have hmd := most_deficient_snd (fl (ideal.nitrogen - cur.nitrogen))
    (fl (ideal.phosphorus - cur.phosphorus)) (fl (ideal.potassium - cur.potassium))
  have hfst := most_deficient_fst (fl (ideal.nitrogen - cur.nitrogen))
    (fl (ideal.phosphorus - cur.phosphorus)) (fl (ideal.potassium - cur.potassium))
  have hconc : (compute_recommendation ("Rice") ⟨22, 35, 45, "NPK 10-20-20"⟩
      ⟨22, 35, 20⟩).line4 = "for Potassium" := by
    have emd : most_deficient (fl ((22:ℚ) - 22)) (fl ((35:ℚ) - 35)) (fl ((45:ℚ) - 20)) =
        ("Potassium", 25) := by
      rw [show (22:ℚ) - 22 = 0 by norm_num, show (35:ℚ) - 35 = 0 by norm_num,
        show (45:ℚ) - 20 = 25 by norm_num, fl_zero, fl_twentyfive]
      decide
    rw [compute_recommendation]
    dsimp only
    rw [emd]
    rw [if_pos (by norm_num)]
    rfl
  refine ⟨?_, ?_, ?_, hfst.2.2.2, hconc⟩
  · rw [compute_recommendation]
    dsimp only
    rw [hmd]
    split_ifs with h
    · exact iff_of_false (by simp) (by linarith)
    · push_neg at h
      exact iff_of_true rfl h
  · intro h
    rw [compute_recommendation]
    dsimp only
    rw [hmd]
    rw [if_pos h]
  · intro h
    rw [compute_recommendation]
    dsimp only
    rw [hmd]
    rw [if_neg (by push_neg; exact h)]

theorem C10_compute_recommendation_witness :
    (2:ℚ) < max (fl ((22:ℚ) - 22)) (max (fl ((35:ℚ) - 35)) (fl ((45:ℚ) - 20))) ∧
    compute_recommendation ("Rice") ⟨22, 35, 45, "NPK 10-20-20"⟩ ⟨22, 35, 20⟩ =
      ⟨"Recommendation:", "Add " ++ toString ((25:ℚ)/2) ++ " gm/sq.m",
        "of NPK 10-20-20", "for Potassium"⟩ := by
  have e1 : fl ((22:ℚ) - 22) = 0 := by
    rw [show (22:ℚ) - 22 = 0 by norm_num, fl_zero]
  have e2 : fl ((35:ℚ) - 35) = 0 := by
    rw [show (35:ℚ) - 35 = 0 by norm_num, fl_zero]
  have e3 : fl ((45:ℚ) - 20) = 25 := by
    rw [show (45:ℚ) - 20 = 25 by norm_num, fl_twentyfive]
  have hmax : (2:ℚ) < max (fl ((22:ℚ) - 22)) (max (fl ((35:ℚ) - 35)) (fl ((45:ℚ) - 20))) := by
    rw [e1, e2, e3]
    norm_num
  have h := (C10_compute_recommendation ("Rice") ⟨22, 35, 45, "NPK 10-20-20"⟩
    ⟨22, 35, 20⟩).2.1 hmax
  refine ⟨hmax, ?_⟩
  rw [h]
  have hamount : pyRound1 (fl (max (fl ((22:ℚ) - 22)) (max (fl ((35:ℚ) - 35))
      (fl ((45:ℚ) - 20))) * NUTRIENT_TO_FERTILIZER_FACTOR)) = (25:ℚ)/2 := by
    rw [e1, e2, e3]
    rw [show max (0:ℚ) (max 0 25) * NUTRIENT_TO_FERTILIZER_FACTOR = 25/2 by
      rw [NUTRIENT_TO_FERTILIZER_FACTOR]; norm_num]
    rw [fl_twentyfive_half, pyRound1_twentyfive_half]
  rw [hamount]
  have hname : (most_deficient (fl ((22:ℚ) - 22)) (fl ((35:ℚ) - 35))
      (fl ((45:ℚ) - 20))).1 = "Potassium" := by
    rw [e1, e2, e3]
    decide
  rw [hname]
  rfl

end MajorProject
